import Mathlib

/-!
Shallow embedding of the Markov jazz chord engine (src/engine.js, second
revision in the file — the one with minor-mode tables, second-order
overrides and approach sequences).  Pure data is translated directly;
`Math.random()` draws become explicit rational parameters in `[0,1)`;
JavaScript objects with string keys become insertion-ordered association
lists; mutation of the engine object becomes explicit state passing on
`EngineState`.
-/

namespace Markov

/-- A transition distribution: a JS object mapping degree tokens to weights,
modelled as an insertion-ordered association list. -/
abbrev Dist := List (String × ℚ)

/-- JS `Array.prototype.indexOf`: index of the first occurrence, `-1` if absent. -/
def jsIndexOf (l : List String) (s : String) : Int :=
  match l.findIdx? (fun x => x == s) with
  | some i => (i : Int)
  | none => -1

/-- JS array indexing `l[i]`: out-of-range or negative indices give `undefined`,
modelled as the string "undefined". -/
def jsGetStr (l : List String) (i : Int) : String :=
  if 0 ≤ i then l.getD i.toNat "undefined" else "undefined"

/-- JS `String.prototype.toUpperCase` restricted to ASCII (all degree tokens are ASCII). -/
def jsToUpper (s : String) : String := String.mk (s.data.map Char.toUpper)

/-- JS `String.prototype.toLowerCase` restricted to ASCII. -/
def jsToLower (s : String) : String := String.mk (s.data.map Char.toLower)

/-- `degree.replace(/[iv]/g, c => c.toUpperCase())` from `getDegreeInterval`:
uppercases exactly the characters `i` and `v`. -/
def ivUpper (s : String) : String :=
  String.mk (s.data.map (fun c => if c = 'i' then 'I' else if c = 'v' then 'V' else c))

/-- Whether `pat` is a prefix of `s` (on character lists). -/
def isPrefixList : List Char → List Char → Bool
  | [], _ => true
  | _ :: _, [] => false
  | p :: ps, c :: cs => p == c && isPrefixList ps cs

/-- `const NOTES = [...]` (line 433). -/
def NOTES : List String :=
  ["C", "Db", "D", "Eb", "E", "F", "Gb", "G", "Ab", "A", "Bb", "B"]

/-- `const ENHARMONIC = {...}` (lines 434-437). -/
def ENHARMONIC : List (String × String) :=
  [("C#", "Db"), ("D#", "Eb"), ("E#", "F"), ("F#", "Gb"), ("G#", "Ab"),
   ("A#", "Bb"), ("B#", "C"), ("Cb", "B"), ("Fb", "E")]

/-- `normalizeNote` (lines 1066-1068): `ENHARMONIC[note] || note`. -/
def normalizeNote (note : String) : String :=
  (List.lookup note ENHARMONIC).getD note

/-- `const MAJOR_DEGREES = {...}` (lines 440-443). -/
def MAJOR_DEGREES : List (String × Nat) :=
  [("I", 0), ("bII", 1), ("II", 2), ("bIII", 3), ("III", 4), ("IV", 5),
   ("bV", 6), ("V", 7), ("bVI", 8), ("VI", 9), ("bVII", 10), ("VII", 11)]

/-- `const DEGREE_TRANSITIONS = {...}` (lines 453-515): first-order
transition table for major keys, insertion order preserved. -/
def DEGREE_TRANSITIONS : List (String × Dist) :=
  [("I", [("ii", 22/100), ("IV", 18/100), ("V", 12/100), ("vi", 15/100), ("iii", 10/100),
          ("bVII", 5/100), ("bIII", 4/100), ("bVI", 4/100), ("II", 5/100), ("I", 5/100)]),
   ("ii", [("V", 50/100), ("bII", 10/100), ("bVII", 8/100), ("vi", 8/100),
           ("iii", 6/100), ("IV", 6/100), ("I", 7/100), ("ii", 5/100)]),
   ("iii", [("vi", 35/100), ("IV", 20/100), ("ii", 15/100), ("bIII", 8/100),
            ("V", 10/100), ("I", 7/100), ("iii", 5/100)]),
   ("IV", [("V", 25/100), ("I", 15/100), ("ii", 15/100), ("iv", 10/100),
           ("bVII", 10/100), ("iii", 8/100), ("vi", 8/100), ("IV", 4/100), ("bII", 5/100)]),
   ("V", [("I", 50/100), ("vi", 15/100), ("IV", 8/100), ("bVI", 8/100),
          ("iii", 6/100), ("V", 5/100), ("bVII", 4/100), ("ii", 4/100)]),
   ("vi", [("ii", 30/100), ("IV", 20/100), ("V", 15/100), ("iii", 10/100),
           ("bVI", 8/100), ("I", 8/100), ("vi", 4/100), ("bVII", 5/100)]),
   ("vii", [("I", 30/100), ("iii", 25/100), ("V", 15/100), ("vi", 10/100),
            ("ii", 10/100), ("IV", 10/100)]),
   ("bII", [("I", 60/100), ("V", 15/100), ("bVII", 10/100), ("ii", 10/100), ("vi", 5/100)]),
   ("bIII", [("IV", 30/100), ("bVII", 25/100), ("ii", 15/100), ("vi", 10/100),
             ("I", 10/100), ("V", 10/100)]),
   ("bVI", [("bVII", 30/100), ("V", 25/100), ("ii", 15/100), ("IV", 15/100),
            ("I", 10/100), ("bII", 5/100)]),
   ("bVII", [("I", 35/100), ("IV", 20/100), ("bVI", 15/100), ("V", 10/100),
             ("ii", 10/100), ("bIII", 10/100)]),
   ("iv", [("I", 25/100), ("V", 25/100), ("bVII", 15/100), ("ii", 15/100),
           ("bVI", 10/100), ("IV", 10/100)]),
   ("II", [("V", 70/100), ("ii", 10/100), ("bII", 10/100), ("I", 10/100)]),
   ("III", [("vi", 70/100), ("IV", 10/100), ("ii", 10/100), ("I", 10/100)]),
   ("VI", [("ii", 70/100), ("V", 10/100), ("IV", 10/100), ("I", 10/100)]),
   ("#IV", [("V", 60/100), ("I", 20/100), ("ii", 20/100)])]

/-- `const MINOR_DEGREE_TRANSITIONS = {...}` (lines 519-574). -/
def MINOR_DEGREE_TRANSITIONS : List (String × Dist) :=
  [("I", [("iv", 22/100), ("V", 15/100), ("bVII", 12/100), ("bVI", 12/100), ("ii", 15/100),
          ("bIII", 8/100), ("v", 4/100), ("II", 5/100), ("I", 7/100)]),
   ("ii", [("V", 55/100), ("bII", 8/100), ("bVII", 8/100), ("iv", 8/100),
           ("I", 8/100), ("bVI", 7/100), ("ii", 6/100)]),
   ("bIII", [("bVI", 25/100), ("bVII", 25/100), ("iv", 15/100), ("V", 10/100),
             ("ii", 10/100), ("I", 10/100), ("bIII", 5/100)]),
   ("iv", [("V", 30/100), ("bVII", 15/100), ("I", 20/100), ("bVI", 10/100),
           ("ii", 10/100), ("bIII", 8/100), ("iv", 4/100), ("bII", 3/100)]),
   ("v", [("bVI", 25/100), ("bVII", 25/100), ("I", 20/100), ("iv", 15/100),
          ("bIII", 10/100), ("v", 5/100)]),
   ("V", [("I", 50/100), ("bVI", 15/100), ("iv", 10/100), ("bVII", 6/100),
          ("bIII", 6/100), ("V", 5/100), ("ii", 4/100), ("bII", 4/100)]),
   ("vi", [("ii", 30/100), ("IV", 20/100), ("V", 15/100), ("I", 15/100),
           ("iv", 10/100), ("bVII", 10/100)]),
   ("bVI", [("bVII", 30/100), ("V", 20/100), ("iv", 15/100), ("ii", 12/100),
            ("I", 10/100), ("bII", 5/100), ("bIII", 8/100)]),
   ("bVII", [("I", 30/100), ("bIII", 20/100), ("bVI", 15/100), ("V", 10/100),
             ("iv", 10/100), ("ii", 10/100), ("bVII", 5/100)]),
   ("bII", [("I", 55/100), ("V", 15/100), ("bVII", 10/100), ("iv", 10/100), ("ii", 10/100)]),
   ("II", [("V", 70/100), ("ii", 10/100), ("bII", 10/100), ("I", 10/100)]),
   ("III", [("bVI", 40/100), ("iv", 20/100), ("bVII", 15/100), ("I", 10/100),
            ("V", 10/100), ("ii", 5/100)]),
   ("VI", [("ii", 70/100), ("V", 10/100), ("iv", 10/100), ("I", 10/100)]),
   ("IV", [("V", 25/100), ("I", 20/100), ("ii", 15/100), ("bVII", 15/100),
           ("iv", 10/100), ("bVI", 10/100), ("IV", 5/100)])]

/-- `const SECOND_ORDER_OVERRIDES = {...}` (lines 580-599); keys are the
JS template strings "prev→current". -/
def SECOND_ORDER_OVERRIDES : List (String × Dist) :=
  [("ii→V", [("I", 75/100), ("vi", 10/100), ("bVI", 5/100), ("IV", 4/100), ("iii", 3/100), ("bVII", 3/100)]),
   ("iii→vi", [("ii", 45/100), ("IV", 20/100), ("V", 10/100), ("I", 8/100), ("bVI", 7/100), ("iii", 5/100), ("bVII", 5/100)]),
   ("vi→ii", [("V", 55/100), ("bII", 10/100), ("bVII", 7/100), ("IV", 8/100), ("I", 8/100), ("iii", 6/100), ("II", 6/100)]),
   ("II→V", [("I", 70/100), ("vi", 12/100), ("bVI", 6/100), ("IV", 5/100), ("iii", 4/100), ("bVII", 3/100)]),
   ("VI→ii", [("V", 55/100), ("bII", 10/100), ("bVII", 7/100), ("IV", 8/100), ("I", 8/100), ("iii", 6/100), ("ii", 6/100)]),
   ("III→vi", [("ii", 40/100), ("IV", 20/100), ("V", 15/100), ("I", 8/100), ("bVI", 7/100), ("iii", 5/100), ("bVII", 5/100)]),
   ("IV→V", [("I", 55/100), ("vi", 15/100), ("bVI", 10/100), ("ii", 8/100), ("iii", 6/100), ("bVII", 3/100), ("V", 3/100)]),
   ("bVI→bVII", [("I", 50/100), ("iv", 15/100), ("ii", 15/100), ("V", 10/100), ("bVI", 5/100), ("bIII", 5/100)]),
   ("iv→V", [("I", 70/100), ("bVI", 10/100), ("iv", 6/100), ("bVII", 6/100), ("ii", 4/100), ("bIII", 4/100)])]

/-- `const APPROACH_SEQUENCES = {...}` (lines 605-610): target degree mapped
to its fixed approach chords and selection weight. -/
def APPROACH_SEQUENCES : List (String × (List String × ℚ)) :=
  [("I", (["ii", "V", "I"], 30/100)),
   ("ii", (["iii", "VI", "ii"], 20/100)),
   ("V", (["vi", "II", "V"], 30/100)),
   ("vi", (["vii", "III", "vi"], 20/100))]

/-- `const APPROACH_PROBABILITY = 0.12` (line 612). -/
def APPROACH_PROBABILITY : ℚ := 12/100

/-- `const KEY_MODULATIONS = {...}` (lines 616-624). -/
def KEY_MODULATIONS : Dist :=
  [("fifth_up", 25/100), ("fifth_down", 25/100), ("relative", 20/100),
   ("parallel", 15/100), ("tritone", 8/100), ("step_up", 4/100), ("step_down", 3/100)]

/-- `QUALITY_OPTIONS.tonic` (line 629). -/
def QUALITY_OPTIONS_tonic : List String := ["maj7", "maj9", "6", "69", "maj7#11"]

/-- `QUALITY_OPTIONS.subdominant` (line 630). -/
def QUALITY_OPTIONS_subdominant : List String := ["maj7", "maj9", "7", "m7", "6"]

/-- `QUALITY_OPTIONS.dominant` (line 631). -/
def QUALITY_OPTIONS_dominant : List String :=
  ["7", "9", "13", "7#11", "7alt", "7b9", "7#9", "sus4"]

/-- `QUALITY_OPTIONS.dominantToMinor` (line 633). -/
def QUALITY_OPTIONS_dominantToMinor : List String := ["7", "7b9", "7#9", "7alt"]

/-- `QUALITY_OPTIONS.dominantToMajor` (line 635). -/
def QUALITY_OPTIONS_dominantToMajor : List String := ["7", "9", "13", "7#11", "sus4"]

/-- `QUALITY_OPTIONS.minor` (line 636). -/
def QUALITY_OPTIONS_minor : List String := ["m7", "m9", "m11", "m6", "m69"]

/-- `QUALITY_OPTIONS.halfDim` (line 637). -/
def QUALITY_OPTIONS_halfDim : List String := ["m7b5", "ø7"]

/-- `QUALITY_OPTIONS.diminished` (line 638). -/
def QUALITY_OPTIONS_diminished : List String := ["dim7", "°7"]

/-- The key object `{ root, mode }`; `mode` is the string "major" or "minor". -/
structure KeyC where
  root : String
  mode : String
deriving DecidableEq, Repr

/-- The resolved settings object built by the constructor (lines 645-650). -/
structure Settings where
  keyStability : ℚ
  adventurousness : ℚ
  complexity : ℚ
  twoChordProbability : ℚ
deriving DecidableEq, Repr

/-- The chord object returned by `realizeChord` (lines 938-945);
`fullName` is the pair `{ root, quality }` returned by `formatChordName`. -/
structure Chord where
  root : String
  quality : String
  degree : String
  fullName : String × String
deriving DecidableEq, Repr

/-- The bar object returned by `generateBar` (lines 714-719). -/
structure Bar where
  barNumber : Nat
  chords : List Chord
  key : KeyC
  keyChanged : Bool
deriving DecidableEq, Repr

/-- The mutable fields of the `MarkovJazzEngine` instance (lines 643-663). -/
structure EngineState where
  settings : Settings
  currentKey : KeyC
  currentDegree : String
  previousDegree : Option String
  barCount : Nat
  history : List Bar
  recentDegrees : List String
  approachQueue : List String
deriving DecidableEq, Repr

/-- The `Math.random()` draws consumed while generating one chord slot,
in program order: the modulation trigger draw, the modulation-type draw,
the post-modulation landing draw, the approach trigger draw, the approach
target draw, and the final weighted degree draw. -/
structure SlotRand where
  modDraw : ℚ
  modTypeDraw : ℚ
  modLandDraw : ℚ
  approachDraw : ℚ
  targetDraw : ℚ
  degreeDraw : ℚ
deriving DecidableEq, Repr

/-- The `Math.random()` draws consumed by one `generateBar` call: the
two-chord decision draw, the per-slot draws, and the quality-index draws
used by chord realization in phase 2. -/
structure BarRand where
  barDraw : ℚ
  slot1 : SlotRand
  slot2 : SlotRand
  qual1 : ℚ
  qual2 : ℚ
deriving DecidableEq, Repr

/-- `weightedRandom`, the subtraction loop (lines 1075-1078): `rem` starts
at `draw * total` and each entry's weight is subtracted in iteration order
until the remainder is `≤ 0`. -/
def weightedPick : ℚ → Dist → Option String
  | _, [] => none
  | rem, (k, w) :: rest => if rem - w ≤ 0 then some k else weightedPick (rem - w) rest

/-- `weightedRandom(weights)` (lines 1070-1081) with the `Math.random()`
value passed explicitly; the safety fallback returns the first entry's key
(an empty weight list, which would throw in JS, yields ""). -/
def weightedRandom (weights : Dist) (r : ℚ) : String :=
  match weightedPick (r * (weights.foldl (fun s p => s + p.2) 0)) weights with
  | some k => k
  | none => (weights.headD ("", 0)).1

/-- `adjustForAdventurousness` (lines 889-900): builds a fresh object with
each weight blended toward the uniform weight `1 / entries.length`.
(For an empty input the JS `uniform` is `Infinity` but the loop body never
runs; here the map over `[]` is `[]` just the same.) -/
def adjustForAdventurousness (adventure : ℚ) (transitions : Dist) : Dist :=
  let uniform : ℚ := 1 / (transitions.length : ℚ)
  transitions.map (fun p => (p.1, p.2 * (1 - adventure) + uniform * adventure))

/-- `applyAntiRepetition` (lines 906-927).  The JS code copies the object,
counts occurrences of each degree in `recentDegrees`, and multiplies the
(unique-keyed) matching entries by 0.3 / 0.7; the truthiness guard
`adjusted[degree]` skips entries whose weight is 0.  Since JS object keys
are unique and each key is updated at most once, this equals a positional
map over the entries with the count of each entry's own degree. -/
def applyAntiRepetition (recentDegrees : List String) (transitions : Dist) : Dist :=
  if recentDegrees.length < 3 then transitions
  else
    transitions.map (fun p =>
      let count := recentDegrees.count p.1
      if 3 ≤ count ∧ p.2 ≠ 0 then (p.1, p.2 * (3/10))
      else if 2 ≤ count ∧ p.2 ≠ 0 then (p.1, p.2 * (7/10))
      else p)

/-- `getMostProbable` (lines 877-887): strict-maximum fold starting from
probability 0 and degree "I"; ties keep the earlier entry. -/
def getMostProbable (transitions : Dist) : String :=
  (transitions.foldl (fun acc p => if p.2 > acc.2 then p else acc) ("I", 0)).1

/-- Steps 3-4 of `getNextDegree` (lines 804-821): the second-order override
for "previous→current" when the previous degree is set and the key is
present, otherwise the mode-appropriate first-order table with fallback to
the major table and then to the major table's "I" entry.  (The JS spreads
`{...}` make value copies; values are compared structurally here.) -/
def selectRawDistribution (st : EngineState) : Dist :=
  let firstOrder : Dist :=
    let table := if st.currentKey.mode = "minor" then MINOR_DEGREE_TRANSITIONS else DEGREE_TRANSITIONS
    match List.lookup st.currentDegree table with
    | some d => d
    | none =>
      match List.lookup st.currentDegree DEGREE_TRANSITIONS with
      | some d => d
      | none => (List.lookup "I" DEGREE_TRANSITIONS).getD []
  match st.previousDegree with
  | some p =>
    match List.lookup (p ++ "→" ++ st.currentDegree) SECOND_ORDER_OVERRIDES with
    | some d => d
    | none => firstOrder
  | none => firstOrder

/-- `tryStartApproach` (lines 836-852): build the weight object over
approach targets other than the current degree, pick one, and queue a copy
of its chord list; returns false (without touching state) only if the
weight object is empty. -/
def tryStartApproach (st : EngineState) (r : ℚ) : Bool × EngineState :=
  let weights : Dist :=
    (APPROACH_SEQUENCES.filter (fun p => p.1 != st.currentDegree)).map (fun p => (p.1, p.2.2))
  if weights.isEmpty then (false, st)
  else
    let target := weightedRandom weights r
    (true, { st with approachQueue := ((List.lookup target APPROACH_SEQUENCES).getD ([], 0)).1 })

/-- Steps 3-6 of `getNextDegree` (lines 804-829): select the raw
distribution, apply the two shaping passes, and draw. -/
def normalStep (st : EngineState) (r : SlotRand) : String × EngineState :=
  let transitions :=
    applyAntiRepetition st.recentDegrees
      (adjustForAdventurousness st.settings.adventurousness (selectRawDistribution st))
  (weightedRandom transitions r.degreeDraw, st)

/-- `getNextDegree` (lines 791-830).  `queue.shift()` is modelled as
head/tail on the queue list. -/
def getNextDegree (st : EngineState) (r : SlotRand) : String × EngineState :=
  match st.approachQueue with
  | h :: t => (h, { st with approachQueue := t })
  | [] =>
    if r.approachDraw < APPROACH_PROBABILITY then
      let started := tryStartApproach st r.targetDraw
      if started.1 then
        (started.2.approachQueue.headD "", { started.2 with approachQueue := started.2.approachQueue.tail })
      else normalStep started.2 r
    else normalStep st r

/-- `peekLikelyNextDegree` (lines 858-875): the same override/first-order
lookup as `getNextDegree` steps 3-4, but deterministically taking the
highest-weight entry and applying no shaping. -/
def peekLikelyNextDegree (st : EngineState) : String :=
  let firstOrder : Dist :=
    let table := if st.currentKey.mode = "minor" then MINOR_DEGREE_TRANSITIONS else DEGREE_TRANSITIONS
    match List.lookup st.currentDegree table with
    | some d => d
    | none =>
      match List.lookup st.currentDegree DEGREE_TRANSITIONS with
      | some d => d
      | none => (List.lookup "I" DEGREE_TRANSITIONS).getD []
  match st.previousDegree with
  | some p =>
    match List.lookup (p ++ "→" ++ st.currentDegree) SECOND_ORDER_OVERRIDES with
    | some d => getMostProbable d
    | none => getMostProbable firstOrder
  | none => getMostProbable firstOrder

/-- The per-type key computation inside `modulate`'s switch (lines 744-780);
`none` is the `default: return` branch.  JS `%` on the nonnegative indices
that occur here agrees with `Int.emod`. -/
def modulateKey (type : String) (k : KeyC) : Option KeyC :=
  let currentRoot : Int := jsIndexOf NOTES (normalizeNote k.root)
  if type = "fifth_up" then some ⟨jsGetStr NOTES ((currentRoot + 7) % 12), k.mode⟩
  else if type = "fifth_down" then some ⟨jsGetStr NOTES ((currentRoot + 5) % 12), k.mode⟩
  else if type = "relative" then
    if k.mode = "major" then some ⟨jsGetStr NOTES ((currentRoot + 9) % 12), "minor"⟩
    else some ⟨jsGetStr NOTES ((currentRoot + 3) % 12), "major"⟩
  else if type = "parallel" then
    some ⟨k.root, if k.mode = "major" then "minor" else "major"⟩
  else if type = "tritone" then some ⟨jsGetStr NOTES ((currentRoot + 6) % 12), k.mode⟩
  else if type = "step_up" then some ⟨jsGetStr NOTES ((currentRoot + 2) % 12), k.mode⟩
  else if type = "step_down" then some ⟨jsGetStr NOTES ((currentRoot + 10) % 12), k.mode⟩
  else none

/-- `modulate` (lines 739-787): pick a type, compute the new key, commit
it, and with probability 0.6 land on the tonic degree. -/
def modulate (st : EngineState) (r : SlotRand) : EngineState :=
  let type := weightedRandom KEY_MODULATIONS r.modTypeDraw
  match modulateKey type st.currentKey with
  | none => st
  | some k =>
    let st1 := { st with currentKey := k }
    if r.modLandDraw < 6/10 then { st1 with currentDegree := "I" } else st1

/-- `maybeModulate` (lines 727-737). -/
def maybeModulate (st : EngineState) (r : SlotRand) : EngineState :=
  let modulationChance := 1 - st.settings.keyStability
  let effectiveChance :=
    if st.currentDegree = "I" ∨ st.currentDegree = "i" then modulationChance * 2
    else modulationChance
  if r.modDraw < effectiveChance then modulate st r else st

/-- `getDegreeInterval` (lines 947-956).  `MAJOR_DEGREES[x] || 0` and the
`??` chains both collapse to `getD`/`Option` matching here (the only entry
whose value is falsy is "I" with value 0, for which both give 0). -/
def getDegreeInterval (degree : String) : Nat :=
  let normalized := ivUpper degree
  if isPrefixList ['#'] normalized.data then
    (((List.lookup (String.mk (normalized.data.drop 1)) MAJOR_DEGREES).getD 0) + 1) % 12
  else
    match List.lookup normalized MAJOR_DEGREES with
    | some v => v
    | none => (List.lookup (jsToUpper degree) MAJOR_DEGREES).getD 0

/-- The complexity-weighted pick at the end of `getChordQuality`
(lines 1025-1030): `maxIndex = floor(1 + (length - 1) * complexity)`,
`index = floor(random * maxIndex)`, result `options[min(index, length - 1)]`.
`Math.floor` becomes `Int.floor`; a (never reached in range) negative index
yields "undefined" via `jsGetStr`. -/
def complexityPick (options : List String) (complexity r : ℚ) : String :=
  let maxIndex : Int := ⌊(1 : ℚ) + ((options.length : ℚ) - 1) * complexity⌋
  let index : Int := ⌊r * (maxIndex : ℚ)⌋
  jsGetStr options (min index ((options.length : Int) - 1))

/-- `getChordQuality` (lines 958-1031) with the `Math.random()` index draw
passed explicitly. -/
def getChordQuality (st : EngineState) (degree : String) (nextDegreeHint : Option String)
    (r : ℚ) : String :=
  let complexity := st.settings.complexity
  let isMinorKey := st.currentKey.mode = "minor"
  let upperDegree := jsToUpper degree
  let classified : List String × Bool :=
    if degree = "II" ∨ degree = "III" ∨ degree = "VI" ∨ degree = "#IV" then
      (QUALITY_OPTIONS_dominant, true)
    else if degree = "bII" then (["7", "7#11", "9", "13"], false)
    else if degree = "bIII" ∨ degree = "bVI" ∨ degree = "bVII" then (["maj7", "7", "maj9"], false)
    else if degree = "iv" then (QUALITY_OPTIONS_minor, false)
    else if degree = "vii" ∨ (degree = "ii" ∧ isMinorKey) then (QUALITY_OPTIONS_halfDim, false)
    else if upperDegree = "V" then (QUALITY_OPTIONS_dominant, true)
    else if (degree = "ii" ∨ degree = "iii" ∨ degree = "vi" ∨ degree = "v") ∨
        (isMinorKey ∧ (jsToLower degree = "i" ∨ jsToLower degree = "iv")) then
      (QUALITY_OPTIONS_minor, false)
    else if upperDegree = "I" then
      ((if isMinorKey then QUALITY_OPTIONS_minor else QUALITY_OPTIONS_tonic), false)
    else if upperDegree = "IV" then (QUALITY_OPTIONS_subdominant, false)
    else (["7", "maj7", "m7"], false)
  let options : List String :=
    match nextDegreeHint with
    | some h =>
      if classified.2 then
        if h ∈ ["ii", "iii", "vi", "i", "iv", "v"] ∨ (isMinorKey ∧ h = "I") then
          QUALITY_OPTIONS_dominantToMinor
        else QUALITY_OPTIONS_dominantToMajor
      else classified.1
    | none => classified.1
  complexityPick options complexity r

/-- `formatDegree` (lines 1035-1041). -/
def formatDegree (degree : String) : String :=
  (List.lookup degree
    [("bII", "♭II"), ("bIII", "♭III"), ("bVI", "♭VI"), ("bVII", "♭VII"),
     ("bV", "♭V"), ("#IV", "♯IV")]).getD degree

/-- JS `String.prototype.replace` with a plain-string pattern: replaces the
first occurrence only (all patterns used here are nonempty). -/
def replFirst (pat repl : List Char) : List Char → List Char
  | [] => []
  | c :: cs =>
    if isPrefixList pat (c :: cs) then repl ++ (c :: cs).drop pat.length
    else c :: replFirst pat repl cs

/-- The ordered replacement chain of `formatChordName` (lines 1046-1059). -/
def QUALITY_REPLACEMENTS : List (String × String) :=
  [("maj7", "Δ7"), ("maj9", "Δ9"), ("m7b5", "ø7"), ("dim7", "°7"),
   ("7alt", "7alt"), ("7#11", "7♯11"), ("7b9", "7♭9"), ("7#9", "7♯9"),
   ("m7", "-7"), ("m9", "-9"), ("m11", "-11"), ("m6", "-6"),
   ("m69", "-6/9"), ("69", "6/9")]

/-- The quality-display computation of `formatChordName`: the fourteen
`.replace` calls applied in order. -/
def formatQuality (quality : String) : String :=
  String.mk (QUALITY_REPLACEMENTS.foldl
    (fun s p => replFirst p.1.data p.2.data s) quality.data)

/-- `formatChordName` (lines 1043-1062): returns the `{ root, quality }` pair. -/
def formatChordName (root quality : String) : String × String :=
  (root, formatQuality quality)

/-- `realizeChord` (lines 931-945). -/
def realizeChord (st : EngineState) (degree : String) (nextDegreeHint : Option String)
    (r : ℚ) : Chord :=
  let rootInterval := getDegreeInterval degree
  let keyRoot : Int := jsIndexOf NOTES (normalizeNote st.currentKey.root)
  let chordRoot := jsGetStr NOTES ((keyRoot + (rootInterval : Int)) % 12)
  let quality := getChordQuality st degree nextDegreeHint r
  { root := chordRoot, quality := quality, degree := formatDegree degree,
    fullName := formatChordName chordRoot quality }

/-- The recent-degree push in `generateBar` (lines 697-698): append, then
`shift()` the oldest entry off once the window exceeds 8. -/
def pushRecent (l : List String) (d : String) : List String :=
  let l1 := l ++ [d]
  if l1.length > 8 then l1.tail else l1

/-- One iteration of `generateBar`'s phase-1 loop (lines 689-701). -/
def slotStep (acc : EngineState × List String) (r : SlotRand) : EngineState × List String :=
  let st1 := maybeModulate acc.1 r
  let next := getNextDegree st1 r
  let st3 : EngineState :=
    { next.2 with
      previousDegree := some next.2.currentDegree,
      currentDegree := next.1,
      recentDegrees := pushRecent next.2.recentDegrees next.1 }
  (st3, acc.2 ++ [next.1])

/-- Phase 2 of `generateBar` (lines 704-709): realize each degree with the
following degree as hint, the last one with the lookahead peek; the
quality draws are consumed in order. -/
def realizeSeq (st : EngineState) : List ℚ → List String → List Chord
  | qs, [d] => [realizeChord st d (some (peekLikelyNextDegree st)) (qs.headD 0)]
  | qs, d :: d2 :: rest =>
    realizeChord st d (some d2) (qs.headD 0) :: realizeSeq st qs.tail (d2 :: rest)
  | _, [] => []

/-- `generateBar` (lines 680-723). -/
def generateBar (st : EngineState) (o : BarRand) : Bar × EngineState :=
  let st0 := { st with barCount := st.barCount + 1 }
  let previousKey := st.currentKey
  let hasTwoChords := o.barDraw < st.settings.twoChordProbability
  let slots := if hasTwoChords then [o.slot1, o.slot2] else [o.slot1]
  let phase1 := slots.foldl slotStep (st0, [])
  let chords := realizeSeq phase1.1 [o.qual1, o.qual2] phase1.2
  let keyChanged :=
    previousKey.root != phase1.1.currentKey.root || previousKey.mode != phase1.1.currentKey.mode
  let bar : Bar :=
    { barNumber := st0.barCount, chords := chords, key := phase1.1.currentKey,
      keyChanged := keyChanged }
  (bar, { phase1.1 with history := phase1.1.history ++ [bar] })

/-- `randomKey` (lines 665-672) with the two `Math.random()` draws explicit. -/
def randomKey (r1 r2 : ℚ) : KeyC :=
  let roots := ["C", "F", "Bb", "Eb", "Ab", "G", "D", "A"]
  let modes := ["major", "major", "major", "minor"]
  { root := jsGetStr roots ⌊r1 * 8⌋, mode := jsGetStr modes ⌊r2 * 4⌋ }

/-- `reset(startingKey)` (lines 655-663); `startingKey || this.randomKey()`
takes the given key when present (objects are truthy). -/
def resetState (settings : Settings) (startingKey : Option KeyC) (r1 r2 : ℚ) : EngineState :=
  { settings := settings,
    currentKey := startingKey.getD (randomKey r1 r2),
    currentDegree := "I",
    previousDegree := none,
    barCount := 0,
    history := [],
    recentDegrees := [],
    approachQueue := [] }

/-- The settings argument of the constructor: each field may be absent
(omitted or `undefined`; `??` also treats `null` as absent). -/
structure SettingsInput where
  keyStability : Option ℚ
  adventurousness : Option ℚ
  complexity : Option ℚ
  twoChordProbability : Option ℚ
deriving DecidableEq, Repr

/-- The `MarkovJazzEngine` constructor (lines 644-653): resolve each
setting with its `??` default, then `reset()` with no starting key. -/
def mkEngine (s : SettingsInput) (r1 r2 : ℚ) : EngineState :=
  resetState
    { keyStability := s.keyStability.getD (85/100),
      adventurousness := s.adventurousness.getD (30/100),
      complexity := s.complexity.getD (50/100),
      twoChordProbability := s.twoChordProbability.getD (15/100) }
    none r1 r2

/-! ## Spec-side definitions and theorems -/

/-- The first-order fallback chain exactly as the specification words it:
the first-order table for the current key's mode (minor table if the mode
is minor, else major), falling back to the major table's entry for the
current degree, and then to the major table's entry for "I". -/
def claimFirstOrder (st : EngineState) : Dist :=
  match List.lookup st.currentDegree
      (if st.currentKey.mode = "minor" then MINOR_DEGREE_TRANSITIONS else DEGREE_TRANSITIONS) with
  | some d => d
  | none =>
    match List.lookup st.currentDegree DEGREE_TRANSITIONS with
    | some d => d
    | none => (List.lookup "I" DEGREE_TRANSITIONS).getD []

/-- The raw-distribution selection rule exactly as the specification words
it: if the pair (previousDegree, currentDegree) has an entry in the
second-order override table, that entry is used as-is (no blending);
otherwise the first-order fallback chain. -/
def claimRawDistribution (st : EngineState) : Dist :=
  match st.previousDegree with
  | some p =>
    match List.lookup (p ++ "→" ++ st.currentDegree) SECOND_ORDER_OVERRIDES with
    | some override => override
    | none => claimFirstOrder st
  | none => claimFirstOrder st

lemma selectRaw_eq_claim (st : EngineState) :
    selectRawDistribution st = claimRawDistribution st := by
  unfold selectRawDistribution claimRawDistribution claimFirstOrder
  cases st.previousDegree with
  | none => rfl
  | some p =>
    cases List.lookup (p ++ "→" ++ st.currentDegree) SECOND_ORDER_OVERRIDES <;> rfl

/-- C1: with an empty approach queue and the approach trigger not firing,
`getNextDegree` draws from the shaped version of exactly the raw
distribution the spec describes: the second-order override for
(previousDegree, currentDegree) when that pair has an entry — used as a
full replacement, with no blending — and otherwise the mode-appropriate
first-order table, falling back to the major table's entry for the current
degree and then to the major table's "I" entry. -/
theorem getNextDegree_raw_distribution_rule (st : EngineState) (r : SlotRand)
    (hq : st.approachQueue = []) (ha : ¬ r.approachDraw < APPROACH_PROBABILITY) :
    getNextDegree st r =
      (weightedRandom
        (applyAntiRepetition st.recentDegrees
          (adjustForAdventurousness st.settings.adventurousness (claimRawDistribution st)))
        r.degreeDraw, st) := by
  have h0 : getNextDegree st r = normalStep st r := by
    simp [getNextDegree, hq, ha]
  rw [h0]
  unfold normalStep
  rw [selectRaw_eq_claim]

/-- Iterated calls to `getNextDegree`, collecting the returned degrees. -/
def runCalls : EngineState → List SlotRand → List String × EngineState
  | st, [] => ([], st)
  | st, r :: rs =>
    let d := getNextDegree st r
    let rest := runCalls d.2 rs
    (d.1 :: rest.1, rest.2)

lemma runCalls_drains : ∀ (rs : List SlotRand) (st : EngineState),
    rs.length = st.approachQueue.length →
    runCalls st rs = (st.approachQueue, { st with approachQueue := [] }) := by
  intro rs
  induction rs with
  | nil =>
    intro st h
    have hq : st.approachQueue = [] := List.length_eq_zero.mp h.symm
    rw [runCalls, hq]
    cases st
    simp_all
  | cons r rs ih =>
    intro st h
    obtain ⟨hd, tl, hq⟩ : ∃ hd tl, st.approachQueue = hd :: tl := by
      cases hqq : st.approachQueue with
      | nil => rw [hqq] at h; simp at h
      | cons a b => exact ⟨a, b, rfl⟩
    have hget : getNextDegree st r = (hd, { st with approachQueue := tl }) := by
      simp [getNextDegree, hq]
    have hlen : rs.length = tl.length := by
      rw [hq] at h
      simpa using h
    have ihst := ih { st with approachQueue := tl } (by simpa using hlen)
    rw [runCalls, hget]
    simp only [ihst, hq]

lemma modulate_queue (st : EngineState) (r : SlotRand) :
    (modulate st r).approachQueue = st.approachQueue := by
  dsimp only [modulate]
  split
  · rfl
  · split <;> rfl

lemma maybeModulate_queue (st : EngineState) (r : SlotRand) :
    (maybeModulate st r).approachQueue = st.approachQueue := by
  dsimp only [maybeModulate]
  split <;> split
  · exact modulate_queue st r
  · rfl
  · exact modulate_queue st r
  · rfl

/-- C2: whenever the approach queue is non-empty, `getNextDegree` returns
and removes the head, leaving every other engine field untouched and
consuming no randomness (so second-order lookup, first-order lookup,
shaping and the weighted draw are all bypassed); consequently a run of
consecutive calls, one per queued degree, emits the whole queue in order
and leaves the rest of the state unchanged; the queue is cleared outright
only by `reset`, and `maybeModulate`/`modulate` never touch it. -/
theorem approach_queue_preemption (st : EngineState) (rs : List SlotRand)
    (hlen : rs.length = st.approachQueue.length) :
    runCalls st rs = (st.approachQueue, { st with approachQueue := [] })
    ∧ (∀ (r : SlotRand) (h : String) (t : List String), st.approachQueue = h :: t →
        getNextDegree st r = (h, { st with approachQueue := t }))
    ∧ (∀ (s : Settings) (k : Option KeyC) (r1 r2 : ℚ),
        (resetState s k r1 r2).approachQueue = [])
    ∧ (∀ r : SlotRand, (maybeModulate st r).approachQueue = st.approachQueue) := by
  refine ⟨runCalls_drains rs st hlen, ?_, fun _ _ _ _ => rfl, ?_⟩
  · intro r h t hq
    simp [getNextDegree, hq]
  · intro r
    exact maybeModulate_queue st r

/-- The anti-repetition penalty factor as the specification words it:
0.3 for a degree occurring 3 or more times in the window, 0.7 for exactly
2 occurrences, unmodified for 0 or 1. -/
def antiRepetitionFactor (count : Nat) : ℚ :=
  if 3 ≤ count then 3/10 else if count = 2 then 7/10 else 1

/-- C3: with fewer than 3 degrees in the recent-degree window the
anti-repetition pass returns the distribution unchanged; otherwise every
entry's weight is multiplied by exactly 0.3 when its degree occurs 3 or
more times in the window, by exactly 0.7 when it occurs exactly twice, and
is left unmodified when it occurs 0 or 1 times. -/
theorem applyAntiRepetition_penalties (recent : List String) (dist : Dist) :
    (recent.length < 3 → applyAntiRepetition recent dist = dist)
    ∧ (3 ≤ recent.length →
        applyAntiRepetition recent dist =
          dist.map (fun p => (p.1, p.2 * antiRepetitionFactor (recent.count p.1)))) := by
  constructor
  · intro h
    simp [applyAntiRepetition, h]
  · intro h
    have h3 : ¬ recent.length < 3 := by omega
    simp only [applyAntiRepetition, if_neg h3]
    apply List.map_congr_left
    intro p _
    by_cases hz : p.2 = 0
    · have f1 : ¬ (3 ≤ recent.count p.1 ∧ p.2 ≠ 0) := by simp [hz]
      have f2 : ¬ (2 ≤ recent.count p.1 ∧ p.2 ≠ 0) := by simp [hz]
      rw [if_neg f1, if_neg f2]
      have hw : p.2 * antiRepetitionFactor (recent.count p.1) = p.2 := by
        rw [hz]; ring
      rw [hw]
    · by_cases h3c : 3 ≤ recent.count p.1
      · rw [if_pos ⟨h3c, hz⟩]
        simp [antiRepetitionFactor, h3c]
      · by_cases h2c : 2 ≤ recent.count p.1
        · have hc2 : recent.count p.1 = 2 := by omega
          rw [if_neg (fun hh => h3c hh.1), if_pos ⟨h2c, hz⟩]
          simp [antiRepetitionFactor, hc2]
        · rw [if_neg (fun hh => h3c hh.1), if_neg (fun hh => h2c hh.1)]
          have hf : antiRepetitionFactor (recent.count p.1) = 1 := by
            have hcc : recent.count p.1 ≠ 2 := by omega
            simp [antiRepetitionFactor, h3c, hcc]
          rw [hf, mul_one]

/-- C4: the adventurousness pass maps each weight `w` in an `N`-entry
distribution to `w * (1 - a) + (1 / N) * a`; at `a = 0` the distribution
is unchanged, and at `a = 1` every entry's weight is exactly `1 / N`
(uniform over the entries present, not over the whole vocabulary). -/
theorem adjustForAdventurousness_blend (a : ℚ) (dist : Dist) :
    adjustForAdventurousness a dist =
      dist.map (fun p => (p.1, p.2 * (1 - a) + (1 / (dist.length : ℚ)) * a))
    ∧ (a = 0 → adjustForAdventurousness a dist = dist)
    ∧ (a = 1 → ∀ p ∈ adjustForAdventurousness a dist, p.2 = 1 / (dist.length : ℚ)) := by
  refine ⟨rfl, ?_, ?_⟩
  · rintro rfl
    simp [adjustForAdventurousness]
  · rintro rfl p hp
    simp only [adjustForAdventurousness, List.mem_map] at hp
    obtain ⟨q, _, rfl⟩ := hp
    simp

/-- C5: for every note of the chromatic scale, `modulate`'s key arithmetic
moves the root by the exact semitone offset of the chosen type modulo 12 —
fifth_up +7, fifth_down +5, tritone +6, step_up +2, step_down +10,
relative +9 from major (mode flips to minor) or +3 from minor (mode flips
to major), parallel keeps the root and flips the mode — leaving the mode
unchanged for every other type; concretely from root C: fifth_up gives G,
fifth_down gives F, tritone gives Gb, relative of C major gives A minor,
parallel of C major gives C minor. -/
theorem modulateKey_offsets (i : Nat) (hi : i < 12) (m : String) :
    (modulateKey "fifth_up" ⟨NOTES.getD i "", m⟩ = some ⟨NOTES.getD ((i + 7) % 12) "", m⟩
     ∧ modulateKey "fifth_down" ⟨NOTES.getD i "", m⟩ = some ⟨NOTES.getD ((i + 5) % 12) "", m⟩
     ∧ modulateKey "tritone" ⟨NOTES.getD i "", m⟩ = some ⟨NOTES.getD ((i + 6) % 12) "", m⟩
     ∧ modulateKey "step_up" ⟨NOTES.getD i "", m⟩ = some ⟨NOTES.getD ((i + 2) % 12) "", m⟩
     ∧ modulateKey "step_down" ⟨NOTES.getD i "", m⟩ = some ⟨NOTES.getD ((i + 10) % 12) "", m⟩
     ∧ (m = "major" →
         modulateKey "relative" ⟨NOTES.getD i "", m⟩ = some ⟨NOTES.getD ((i + 9) % 12) "", "minor"⟩)
     ∧ (m = "minor" →
         modulateKey "relative" ⟨NOTES.getD i "", m⟩ = some ⟨NOTES.getD ((i + 3) % 12) "", "major"⟩)
     ∧ (m = "major" → modulateKey "parallel" ⟨NOTES.getD i "", m⟩ = some ⟨NOTES.getD i "", "minor"⟩)
     ∧ (m = "minor" → modulateKey "parallel" ⟨NOTES.getD i "", m⟩ = some ⟨NOTES.getD i "", "major"⟩))
    ∧ (modulateKey "fifth_up" ⟨"C", "major"⟩ = some ⟨"G", "major"⟩
       ∧ modulateKey "fifth_down" ⟨"C", "major"⟩ = some ⟨"F", "major"⟩
       ∧ modulateKey "tritone" ⟨"C", "major"⟩ = some ⟨"Gb", "major"⟩
       ∧ modulateKey "relative" ⟨"C", "major"⟩ = some ⟨"A", "minor"⟩
       ∧ modulateKey "parallel" ⟨"C", "major"⟩ = some ⟨"C", "minor"⟩) := by
  refine ⟨?_, by decide, by decide, by decide, by decide, by decide⟩
  interval_cases i <;>
    exact ⟨rfl, rfl, rfl, rfl, rfl,
      fun hm => by subst hm; rfl, fun hm => by subst hm; rfl,
      fun hm => by subst hm; rfl, fun hm => by subst hm; rfl⟩

lemma complexityPick_mem (l : List String) (c r : ℚ) (hl : l ≠ []) (hc : 0 ≤ c)
    (hr0 : 0 ≤ r) : complexityPick l c r ∈ l := by
  have hlen : 1 ≤ l.length := List.length_pos.mpr hl
  have hlenQ : (1 : ℚ) ≤ (l.length : ℚ) := by exact_mod_cast hlen
  set M : Int := ⌊(1 : ℚ) + ((l.length : ℚ) - 1) * c⌋ with hM
  have hM1 : 1 ≤ M := by
    rw [hM]
    apply Int.le_floor.mpr
    have hnn : 0 ≤ ((l.length : ℚ) - 1) * c := mul_nonneg (by linarith) hc
    push_cast
    linarith
  have hMQ : (0 : ℚ) ≤ (M : ℚ) := by exact_mod_cast hM1.trans' (by norm_num)
  have hidx0 : 0 ≤ ⌊r * (M : ℚ)⌋ := Int.floor_nonneg.mpr (mul_nonneg hr0 hMQ)
  have hj0 : 0 ≤ min ⌊r * (M : ℚ)⌋ ((l.length : Int) - 1) := by
    apply le_min hidx0
    omega
  have hjlt : min ⌊r * (M : ℚ)⌋ ((l.length : Int) - 1) < (l.length : Int) := by
    have := min_le_right ⌊r * (M : ℚ)⌋ ((l.length : Int) - 1)
    omega
  show jsGetStr l (min ⌊r * (M : ℚ)⌋ ((l.length : Int) - 1)) ∈ l
  unfold jsGetStr
  rw [if_pos hj0]
  have htn : (min ⌊r * (M : ℚ)⌋ ((l.length : Int) - 1)).toNat < l.length :=
    (Int.toNat_lt hj0).mpr hjlt
  rw [List.getD_eq_getElem l _ htn]
  exact List.getElem_mem htn

/-- The context-sensitive option list a dominant-function chord draws
from, keyed on the hint and the key mode. -/
def dominantHintOptions (st : EngineState) (h : String) : List String :=
  if h ∈ ["ii", "iii", "vi", "i", "iv", "v"] ∨ (st.currentKey.mode = "minor" ∧ h = "I")
  then QUALITY_OPTIONS_dominantToMinor else QUALITY_OPTIONS_dominantToMajor

set_option maxHeartbeats 1000000 in
lemma getChordQuality_V_red (st : EngineState) (h : String) (r : ℚ) :
    getChordQuality st "V" (some h) r =
      complexityPick (dominantHintOptions st h) st.settings.complexity r := rfl

set_option maxHeartbeats 1000000 in
lemma getChordQuality_II_red (st : EngineState) (h : String) (r : ℚ) :
    getChordQuality st "II" (some h) r =
      complexityPick (dominantHintOptions st h) st.settings.complexity r := rfl

set_option maxHeartbeats 1000000 in
lemma getChordQuality_III_red (st : EngineState) (h : String) (r : ℚ) :
    getChordQuality st "III" (some h) r =
      complexityPick (dominantHintOptions st h) st.settings.complexity r := rfl

set_option maxHeartbeats 1000000 in
lemma getChordQuality_VI_red (st : EngineState) (h : String) (r : ℚ) :
    getChordQuality st "VI" (some h) r =
      complexityPick (dominantHintOptions st h) st.settings.complexity r := rfl

set_option maxHeartbeats 1000000 in
lemma getChordQuality_sharpIV_red (st : EngineState) (h : String) (r : ℚ) :
    getChordQuality st "#IV" (some h) r =
      complexityPick (dominantHintOptions st h) st.settings.complexity r := rfl

/-- C6: realizing any dominant-function degree (V or a secondary dominant
II, III, VI, #IV) with a hint supplied draws the quality only from the
darker `dominantToMinor` list when the hint is one of ii, iii, vi, i, iv,
v or equals "I" while the key is minor, and only from the brighter
`dominantToMajor` list otherwise (complexity and the random draw are
nonnegative, as `Math.random()` guarantees). -/
theorem getChordQuality_dominant_hint (st : EngineState) (degree h : String) (r : ℚ)
    (hdeg : degree ∈ ["V", "II", "III", "VI", "#IV"])
    (hc : 0 ≤ st.settings.complexity) (hr0 : 0 ≤ r) :
    getChordQuality st degree (some h) r ∈
      (if h ∈ ["ii", "iii", "vi", "i", "iv", "v"] ∨ (st.currentKey.mode = "minor" ∧ h = "I")
       then QUALITY_OPTIONS_dominantToMinor else QUALITY_OPTIONS_dominantToMajor) := by
  have hmem : ∀ opts : List String, opts = dominantHintOptions st h →
      complexityPick opts st.settings.complexity r ∈
        (if h ∈ ["ii", "iii", "vi", "i", "iv", "v"] ∨ (st.currentKey.mode = "minor" ∧ h = "I")
         then QUALITY_OPTIONS_dominantToMinor else QUALITY_OPTIONS_dominantToMajor) := by
    intro opts hopts
    unfold dominantHintOptions at hopts
    split at hopts <;> rename_i hsplit
    · rw [if_pos hsplit, hopts]
      exact complexityPick_mem _ _ _ (by simp [QUALITY_OPTIONS_dominantToMinor]) hc hr0
    · rw [if_neg hsplit, hopts]
      exact complexityPick_mem _ _ _ (by simp [QUALITY_OPTIONS_dominantToMajor]) hc hr0
  fin_cases hdeg
  · rw [getChordQuality_V_red]
    exact hmem _ rfl
  · rw [getChordQuality_II_red]
    exact hmem _ rfl
  · rw [getChordQuality_III_red]
    exact hmem _ rfl
  · rw [getChordQuality_VI_red]
    exact hmem _ rfl
  · rw [getChordQuality_sharpIV_red]
    exact hmem _ rfl

/-- The closed quality vocabulary: every string appearing in a
quality-option list usable by the realizer — the `QUALITY_OPTIONS` lists
plus the inline lists in `getChordQuality` (whose tokens are all already
among the former). -/
def QUALITY_VOCAB : List String :=
  ["maj7", "maj9", "6", "69", "maj7#11", "7", "9", "13", "7#11", "7alt", "7b9", "7#9",
   "sus4", "m7", "m9", "m11", "m6", "m69", "m7b5", "ø7", "dim7", "°7"]

/-- How many of the fourteen replacement rules of `formatChordName`
actually rewrite the string while it flows through the chain. -/
def rulesChanged (q : String) : Nat :=
  (QUALITY_REPLACEMENTS.foldl
    (fun acc p =>
      let s1 := replFirst p.1.data p.2.data acc.1
      (s1, acc.2 + if s1 ≠ acc.1 then 1 else 0)) (q.data, 0)).2

/-- The display string each vocabulary token actually maps to. -/
def EXPECTED_DISPLAY : List (String × String) :=
  [("maj7", "Δ7"), ("maj9", "Δ9"), ("6", "6"), ("69", "6/9"), ("maj7#11", "Δ7♯11"),
   ("7", "7"), ("9", "9"), ("13", "13"), ("7#11", "7♯11"), ("7alt", "7alt"),
   ("7b9", "7♭9"), ("7#9", "7♯9"), ("sus4", "sus4"), ("m7", "-7"), ("m9", "-9"),
   ("m11", "-11"), ("m6", "-6"), ("m69", "-6/9"), ("m7b5", "ø7"), ("ø7", "ø7"),
   ("dim7", "°7"), ("°7", "°7")]

/-- C7 counterexample: the vocabulary token "maj7#11" is rewritten by two
replacement rules, not exactly one — the `maj7` rule turns it into
"Δ7#11" and the `7#11` rule then turns that into "Δ7♯11"; so the claim
that every token has exactly one substitution rule applied and no token is
rewritten by more than one rule is false. -/
theorem formatChordName_single_rule_counterexample :
    "maj7#11" ∈ QUALITY_VOCAB ∧ formatQuality "maj7#11" = "Δ7♯11"
    ∧ rulesChanged "maj7#11" = 2 := by decide

/-- C7 (amended): every raw quality token in the closed vocabulary maps to
exactly one display string (the table `EXPECTED_DISPLAY`), each token is
rewritten by at most two (possibly zero) replacement rules, and "m7b5" is
rewritten exactly once, yielding "ø7" — not "-7b5" or "ø7b5". -/
theorem formatChordName_token_mapping :
    (∀ q ∈ QUALITY_VOCAB,
      formatQuality q = (List.lookup q EXPECTED_DISPLAY).getD "" ∧ rulesChanged q ≤ 2)
    ∧ formatQuality "m7b5" = "ø7" ∧ rulesChanged "m7b5" = 1 := by decide

lemma slotStep_snd (acc : EngineState × List String) (r : SlotRand) :
    (slotStep acc r).2 = acc.2 ++ [(getNextDegree (maybeModulate acc.1 r) r).1] := rfl

lemma phase1_degrees_length (slots : List SlotRand) (acc : EngineState × List String) :
    ((slots.foldl slotStep acc).2).length = acc.2.length + slots.length := by
  induction slots generalizing acc with
  | nil => simp
  | cons r rs ih =>
    rw [List.foldl_cons, ih, slotStep_snd]
    simp
    omega

lemma realizeSeq_length (st : EngineState) :
    ∀ (qs : List ℚ) (ds : List String), (realizeSeq st qs ds).length = ds.length
  | _, [] => rfl
  | _, [_] => rfl
  | qs, d :: d2 :: rest => by
    show (realizeChord st d (some d2) (qs.headD 0) :: realizeSeq st qs.tail (d2 :: rest)).length = _
    rw [List.length_cons, realizeSeq_length st qs.tail (d2 :: rest)]
    rfl

/-- C8: every bar produced by `generateBar` has exactly 1 or 2 chords;
with `twoChordProbability = 0` (and the draw nonnegative, as
`Math.random()` guarantees) it has exactly 1, and with
`twoChordProbability = 1` (and the draw below 1) exactly 2. -/
theorem generateBar_chord_count (st : EngineState) (o : BarRand) :
    ((generateBar st o).1.chords.length = 1 ∨ (generateBar st o).1.chords.length = 2)
    ∧ (st.settings.twoChordProbability = 0 → 0 ≤ o.barDraw →
        (generateBar st o).1.chords.length = 1)
    ∧ (st.settings.twoChordProbability = 1 → o.barDraw < 1 →
        (generateBar st o).1.chords.length = 2) := by
  have hlen : (generateBar st o).1.chords.length =
      (if o.barDraw < st.settings.twoChordProbability then [o.slot1, o.slot2] else [o.slot1]).length := by
    show (realizeSeq _ _ _).length = _
    rw [realizeSeq_length, phase1_degrees_length]
    simp
  refine ⟨?_, ?_, ?_⟩
  · rw [hlen]
    split <;> simp
  · intro h0 hge
    have hnot : ¬ o.barDraw < st.settings.twoChordProbability := by
      rw [h0]
      exact not_lt.mpr hge
    rw [hlen, if_neg hnot]
    rfl
  · intro h1 hlt
    have hyes : o.barDraw < st.settings.twoChordProbability := by
      rw [h1]
      exact hlt
    rw [hlen, if_pos hyes]
    rfl

/-- `adjustForAdventurousness` on a heap of distribution objects: the JS
body allocates a fresh object (`const adjusted = {}`) and writes only to
it, reading the argument; so on a heap it appends the blended copy at a
fresh address and returns that address, leaving every existing address
alone. -/
def adjustOnHeap (adventure : ℚ) (heap : List Dist) (ref : Nat) : List Dist × Nat :=
  (heap ++ [adjustForAdventurousness adventure (heap.getD ref [])], heap.length)

/-- `applyAntiRepetition` on a heap of distribution objects: the JS body
copies its argument (`const adjusted = {...transitions}`) and mutates only
the copy, so on a heap it appends the penalized copy at a fresh address
and returns that address. -/
def antiRepOnHeap (recentDegrees : List String) (heap : List Dist) (ref : Nat) :
    List Dist × Nat :=
  (heap ++ [applyAntiRepetition recentDegrees (heap.getD ref [])], heap.length)

/-- C9: neither shaping pass mutates the distribution object it is given —
after either pass runs on a heap of distribution objects (which may
include the shared static tables), every pre-existing heap entry, in
particular the input, is unchanged; and `peekLikelyNextDegree` is a pure
function of the state (it returns a degree without producing a new state)
that takes the strict maximum of the very distribution `getNextDegree`'s
override/first-order lookup selects, with neither shaping pass applied. -/
theorem shaper_no_mutation_and_peek_unshaped (a : ℚ) (recent : List String)
    (heap : List Dist) (ref i : Nat) (hi : i < heap.length) (st : EngineState) :
    ((adjustOnHeap a heap ref).1.getD i [] = heap.getD i [])
    ∧ ((antiRepOnHeap recent heap ref).1.getD i [] = heap.getD i [])
    ∧ peekLikelyNextDegree st = getMostProbable (selectRawDistribution st) := by
  refine ⟨List.getD_append _ _ _ _ hi, List.getD_append _ _ _ _ hi, ?_⟩
  unfold peekLikelyNextDegree selectRawDistribution
  cases st.previousDegree with
  | none => rfl
  | some p =>
    dsimp only
    cases List.lookup (p ++ "→" ++ st.currentDegree) SECOND_ORDER_OVERRIDES <;> rfl

/-- C10: every constructor-settings field that is absent is initialized to
its fixed default — keyStability 0.85, adventurousness 0.30,
complexity 0.50, twoChordProbability 0.15 — and constructing with no
argument resolves all four defaults and performs a full reset: tonic
degree, no previous degree, bar counter 0, empty history, empty
recent-degree window, empty approach queue, and a freshly drawn random
key. -/
theorem mkEngine_defaults (s : SettingsInput) (r1 r2 : ℚ) :
    ((s.keyStability = none → (mkEngine s r1 r2).settings.keyStability = 85/100)
     ∧ (s.adventurousness = none → (mkEngine s r1 r2).settings.adventurousness = 30/100)
     ∧ (s.complexity = none → (mkEngine s r1 r2).settings.complexity = 50/100)
     ∧ (s.twoChordProbability = none → (mkEngine s r1 r2).settings.twoChordProbability = 15/100))
    ∧ (s = ⟨none, none, none, none⟩ →
        mkEngine s r1 r2 =
          { settings := ⟨85/100, 30/100, 50/100, 15/100⟩,
            currentKey := randomKey r1 r2,
            currentDegree := "I", previousDegree := none, barCount := 0,
            history := [], recentDegrees := [], approachQueue := [] }) := by
  refine ⟨⟨?_, ?_, ?_, ?_⟩, ?_⟩
  · intro h
    simp [mkEngine, resetState, h]
  · intro h
    simp [mkEngine, resetState, h]
  · intro h
    simp [mkEngine, resetState, h]
  · intro h
    simp [mkEngine, resetState, h]
  · rintro rfl
    rfl

/-! ## Concrete inputs for the witness theorems -/

def sampleSettings : Settings := ⟨85/100, 30/100, 50/100, 15/100⟩

def sampleState : EngineState :=
  { settings := sampleSettings, currentKey := ⟨"C", "major"⟩, currentDegree := "I",
    previousDegree := none, barCount := 0, history := [], recentDegrees := [],
    approachQueue := [] }

def sampleSlot : SlotRand := ⟨1/2, 1/2, 1/2, 1/2, 1/2, 1/2⟩

def queuedState : EngineState := { sampleState with approachQueue := ["ii", "V", "I"] }

def sampleBarRand : BarRand := ⟨1/2, sampleSlot, sampleSlot, 1/2, 1/2⟩

def stP0 : EngineState := { sampleState with settings := ⟨85/100, 30/100, 50/100, 0⟩ }

def stP1 : EngineState := { sampleState with settings := ⟨85/100, 30/100, 50/100, 1⟩ }

def sampleHeap : List Dist := [[("I", (1:ℚ)/2), ("V", (1:ℚ)/2)]]

/-- Witness for C1 at a concrete state and draw. -/
theorem getNextDegree_raw_distribution_rule_witness :
    getNextDegree sampleState sampleSlot =
      (weightedRandom
        (applyAntiRepetition sampleState.recentDegrees
          (adjustForAdventurousness sampleState.settings.adventurousness
            (claimRawDistribution sampleState)))
        sampleSlot.degreeDraw, sampleState) :=
  getNextDegree_raw_distribution_rule sampleState sampleSlot rfl
    (by norm_num [sampleSlot, APPROACH_PROBABILITY])

/-- Witness for C2: a queued ii-V-I approach is emitted in full. -/
theorem approach_queue_preemption_witness :
    runCalls queuedState [sampleSlot, sampleSlot, sampleSlot]
      = (queuedState.approachQueue, { queuedState with approachQueue := [] }) :=
  (approach_queue_preemption queuedState [sampleSlot, sampleSlot, sampleSlot] rfl).1

/-- Witness for C3 on both sides of the window threshold. -/
theorem applyAntiRepetition_penalties_witness :
    applyAntiRepetition ["I", "V"] [("I", (1:ℚ)/2)] = [("I", (1:ℚ)/2)]
    ∧ applyAntiRepetition ["I", "I", "V"] [("I", (1:ℚ)/2), ("V", (1:ℚ)/4)]
      = [("I", (1:ℚ)/2), ("V", (1:ℚ)/4)].map
          (fun p => (p.1, p.2 * antiRepetitionFactor (["I", "I", "V"].count p.1))) :=
  ⟨(applyAntiRepetition_penalties ["I", "V"] [("I", (1:ℚ)/2)]).1 (by decide),
   (applyAntiRepetition_penalties ["I", "I", "V"] [("I", (1:ℚ)/2), ("V", (1:ℚ)/4)]).2 (by decide)⟩

/-- Witness for C4 at adventurousness 0 and 1. -/
theorem adjustForAdventurousness_blend_witness :
    adjustForAdventurousness 0 [("I", (3:ℚ)/4)] = [("I", (3:ℚ)/4)]
    ∧ ∀ p ∈ adjustForAdventurousness 1 [("I", (3:ℚ)/4), ("V", (1:ℚ)/4)],
        p.2 = 1 / ((([("I", (3:ℚ)/4), ("V", (1:ℚ)/4)] : Dist).length : ℚ)) :=
  ⟨(adjustForAdventurousness_blend 0 [("I", (3:ℚ)/4)]).2.1 rfl,
   (adjustForAdventurousness_blend 1 [("I", (3:ℚ)/4), ("V", (1:ℚ)/4)]).2.2 rfl⟩

/-- Witness for C5 at root C. -/
theorem modulateKey_offsets_witness :
    modulateKey "fifth_up" ⟨NOTES.getD 0 "", "major"⟩ = some ⟨NOTES.getD ((0 + 7) % 12) "", "major"⟩
    ∧ modulateKey "relative" ⟨NOTES.getD 0 "", "major"⟩
        = some ⟨NOTES.getD ((0 + 9) % 12) "", "minor"⟩ :=
  ⟨(modulateKey_offsets 0 (by norm_num) "major").1.1,
   (modulateKey_offsets 0 (by norm_num) "major").1.2.2.2.2.2.1 rfl⟩

/-- Witness for C6: degree V with hint "I" in C major draws bright, with
hint "vi" dark. -/
theorem getChordQuality_dominant_hint_witness :
    getChordQuality sampleState "V" (some "I") ((1:ℚ)/2) ∈ QUALITY_OPTIONS_dominantToMajor
    ∧ getChordQuality sampleState "V" (some "vi") ((1:ℚ)/2) ∈ QUALITY_OPTIONS_dominantToMinor := by
  constructor
  · have hth := getChordQuality_dominant_hint sampleState "V" "I" (1/2) (by decide)
      (by norm_num [sampleState, sampleSettings]) (by norm_num)
    rwa [if_neg (by decide)] at hth
  · have hth := getChordQuality_dominant_hint sampleState "V" "vi" (1/2) (by decide)
      (by norm_num [sampleState, sampleSettings]) (by norm_num)
    rwa [if_pos (by decide)] at hth

/-- Witness for C7 (amended form) at the token "m7b5". -/
theorem formatChordName_token_mapping_witness :
    formatQuality "m7b5" = (List.lookup "m7b5" EXPECTED_DISPLAY).getD ""
    ∧ rulesChanged "m7b5" ≤ 2 :=
  formatChordName_token_mapping.1 "m7b5" (by decide)

/-- Witness for C8 at twoChordProbability 0 and 1. -/
theorem generateBar_chord_count_witness :
    (generateBar stP0 sampleBarRand).1.chords.length = 1
    ∧ (generateBar stP1 sampleBarRand).1.chords.length = 2 :=
  ⟨(generateBar_chord_count stP0 sampleBarRand).2.1 rfl (by norm_num [sampleBarRand, sampleSlot]),
   (generateBar_chord_count stP1 sampleBarRand).2.2 rfl (by norm_num [sampleBarRand, sampleSlot])⟩

/-- Witness for C9 on a one-object heap. -/
theorem shaper_no_mutation_witness :
    (adjustOnHeap ((3:ℚ)/10) sampleHeap 0).1.getD 0 [] = sampleHeap.getD 0 []
    ∧ (antiRepOnHeap ["I"] sampleHeap 0).1.getD 0 [] = sampleHeap.getD 0 []
    ∧ peekLikelyNextDegree sampleState = getMostProbable (selectRawDistribution sampleState) :=
  shaper_no_mutation_and_peek_unshaped ((3:ℚ)/10) ["I"] sampleHeap 0 0
    (by simp [sampleHeap]) sampleState

/-- Witness for C10 with every settings field absent. -/
theorem mkEngine_defaults_witness :
    (mkEngine ⟨none, none, none, none⟩ ((1:ℚ)/2) ((1:ℚ)/2)).settings.keyStability = 85/100
    ∧ mkEngine ⟨none, none, none, none⟩ ((1:ℚ)/2) ((1:ℚ)/2) =
        { settings := ⟨85/100, 30/100, 50/100, 15/100⟩,
          currentKey := randomKey ((1:ℚ)/2) ((1:ℚ)/2),
          currentDegree := "I", previousDegree := none, barCount := 0,
          history := [], recentDegrees := [], approachQueue := [] } :=
  ⟨(mkEngine_defaults ⟨none, none, none, none⟩ (1/2) (1/2)).1.1 rfl,
   (mkEngine_defaults ⟨none, none, none, none⟩ (1/2) (1/2)).2 rfl⟩

end Markov
